import Mathlib

/-!
Verification of the SmartExpenseSettle PDF-processing pipeline.

Shallow embedding of `src/app/pdf_parser.py`, `src/app/enhanced_detector.py`,
`src/app/data_extractor.py` and the data model of `src/app/models.py`.

Modelling conventions:
* Python strings are `String` / `List Char`; Python `str.lower`, `str.strip`,
  `str.count`, substring `in`, and `re.sub(r'\s+', ' ', _)` are implemented
  character-by-character below (`lowerStr`, `trimS`, `strCount`,
  `listContains`, `collapseWs`), matching CPython semantics on the
  ASCII/Hangul texts this program processes.
* Calls into the `re` module on the detector's signature regexes are opaque
  library calls; they enter the embedding as an explicit match-count oracle
  `count : String → String → Nat` (regex source ↦ lowered page text ↦ number
  of `re.findall` matches) or a search oracle `search : String → String →
  Option String` (regex source ↦ text ↦ extracted group of the first match).
  The one regex whose exact semantics a claim depends on — the `date_kr`
  pattern of `DataExtractor._compile_patterns` — is implemented directly
  (`dateKrSearch`).
* Python floats that only ever hold decimal fractions (confidences) are
  modelled as `ℚ`.
* I/O-carrying values (file handles, timings, engine exceptions) are modelled
  by outcome values: an engine run is a pure function
  `ExtractionEngine → EngineOutcome`.
-/

/-- Python `str.lower` (identity on Hangul, ASCII case fold). -/
def lowerStr (s : String) : String := ⟨s.data.map Char.toLower⟩

/-- Python `str.strip` on a character list. -/
def trimChars (l : List Char) : List Char :=
  ((l.dropWhile Char.isWhitespace).reverse.dropWhile Char.isWhitespace).reverse

/-- Python `str.strip`. -/
def trimS (s : String) : String := ⟨trimChars s.data⟩

/-- Helper for `re.sub(r'\s+', ' ', text)`: the boolean records whether the
previous character was whitespace (already replaced by a single space). -/
def collapseWsGo : Bool → List Char → List Char
  | _, [] => []
  | prevWs, c :: rest =>
    if c.isWhitespace then
      if prevWs then collapseWsGo true rest else ' ' :: collapseWsGo true rest
    else c :: collapseWsGo false rest

/-- Embeds `utils.clean_text`: collapse whitespace runs to one space, then strip. -/
def cleanText (text : String) : String :=
  if text = "" then "" else trimS ⟨collapseWsGo false text.data⟩

/-- Python substring test `needle in hay` on character lists. -/
def listContains (needle : List Char) : List Char → Bool
  | [] => needle.isEmpty
  | c :: rest => needle.isPrefixOf (c :: rest) || listContains needle rest

/-- Scanner for Python `hay.count(needle)` with a nonempty needle: `skip`
counts characters still covered by the previous match (occurrences are
non-overlapping, scanning left to right). -/
def strCountSkip (needle : List Char) : List Char → Nat → Nat
  | [], _ => 0
  | c :: rest, skip =>
    match skip with
    | n + 1 => strCountSkip needle rest n
    | 0 =>
      if needle.isPrefixOf (c :: rest) then
        1 + strCountSkip needle rest (needle.length - 1)
      else strCountSkip needle rest 0

/-- Python `hay.count(needle)`: number of non-overlapping occurrences,
scanning left to right (`''.count` conventions included). -/
def strCountL (needle : List Char) (hay : List Char) : Nat :=
  if needle = [] then hay.length + 1 else strCountSkip needle hay 0

/-- Python `hay.count(needle)` on strings. -/
def strCount (needle hay : String) : Nat := strCountL needle.data hay.data

/-- Embeds `models.ExtractionEngine`. -/
inductive ExtractionEngine where
  | upstage
  | pdfplumber
  | pymupdf
  | tesseract
deriving DecidableEq

/-- Embeds `models.DocumentType` (members in Python definition order). -/
inductive DocumentType where
  | invoice
  | export_declaration
  | bill_of_lading
  | tax_invoice
  | remittance_advice
  | mixed
  | unknown
deriving DecidableEq

/-- Embeds `models.ProcessingStatus`. -/
inductive ProcessingStatus where
  | pending
  | processing
  | completed
  | failed
  | partway -- Python member PARTIAL ("partial completion"); renamed to a non-keyword
deriving DecidableEq

/-- Outcome of running one extraction engine on the (validated) PDF file:
`ok text` models a normal return, `err msg` models a raised exception. -/
inductive EngineOutcome where
  | ok (text : String)
  | err (msg : String)
deriving DecidableEq

/-- The fixed default engine priority of
`PDFParsingEngine._get_engine_order`. -/
def defaultOrder : List ExtractionEngine :=
  [ExtractionEngine.upstage, ExtractionEngine.pymupdf,
   ExtractionEngine.pdfplumber, ExtractionEngine.tesseract]

/-- Embeds `PDFParsingEngine._get_engine_order`: preferred engine first, then the
remaining default-priority engines with the preferred one removed. -/
def getEngineOrder (preferred : ExtractionEngine) : List ExtractionEngine :=
  if preferred ∈ defaultOrder then
    preferred :: defaultOrder.filter (fun e => e ≠ preferred)
  else defaultOrder

/-- The per-engine minimum acceptable text length of
`extract_text_from_pdf` (line 112): 20 for Upstage, 50 otherwise. -/
def minLength (engine : ExtractionEngine) : Nat :=
  if engine = ExtractionEngine.upstage then 20 else 50

/-- The acceptance test of `extract_text_from_pdf` (line 113):
`text and len(text.strip()) > min_length`. -/
def acceptedBy (run : ExtractionEngine → EngineOutcome) (engine : ExtractionEngine) : Bool :=
  match run engine with
  | .ok text => decide (text ≠ "") && decide (minLength engine < (trimS text).length)
  | .err _ => false

/-- The engine loop of `extract_text_from_pdf` (lines 102-139): try each
engine in order, remember the message of the most recent exception, return
the cleaned text of the first accepted engine, and raise (model: `.error`)
carrying the remembered message once the order is exhausted.
Timings and the statistics counters are I/O-only and omitted. -/
def tryEngines (run : ExtractionEngine → EngineOutcome) :
    List ExtractionEngine → Option String → Except (Option String) (String × ExtractionEngine)
  | [], lastError => .error lastError
  | engine :: rest, lastError =>
    match run engine with
    | .ok text =>
      if text ≠ "" ∧ minLength engine < (trimS text).length then
        .ok (cleanText text, engine)
      else tryEngines run rest lastError
    | .err msg => tryEngines run rest (some msg)

/-- Embeds `PDFParsingEngine.extract_text_from_pdf` after PDF validation, as a
function of the engine-run outcomes. -/
def extractTextFromPdf (run : ExtractionEngine → EngineOutcome)
    (preferred : ExtractionEngine) : Except (Option String) (String × ExtractionEngine) :=
  tryEngines run (getEngineOrder preferred) none

/-- The message of the last exception raised while walking `order`
(the `last_error` variable of `extract_text_from_pdf`). -/
def lastRaisedError (run : ExtractionEngine → EngineOutcome)
    (order : List ExtractionEngine) : Option String :=
  order.foldl (fun acc engine => match run engine with | .err msg => some msg | .ok _ => acc) none

/-- One insertion step of a stable insertion sort (`r x y` = "`x` may stay
before `y`"). -/
def insertOrdered {α : Type} (r : α → α → Bool) (x : α) : List α → List α
  | [] => [x]
  | y :: ys => if r x y then x :: y :: ys else y :: insertOrdered r x ys

/-- Python's stable `list.sort` with comparison `r`. -/
def sortStable {α : Type} (r : α → α → Bool) (l : List α) : List α :=
  l.foldr (insertOrdered r) []

/-- One entry of `EnhancedDocumentDetector.signature_patterns`. -/
structure SignatureConfig where
  patterns : List String
  exclusions : List String
  minScore : Nat

/-- Embeds `signature_patterns[DocumentType.INVOICE]`. -/
def invoiceCfg : SignatureConfig where
  patterns :=
    ["invoice\\s*(?:no\\.?|number)", "freight\\s*(?:charge|cost)", "운임|화물운송료",
     "인보이스", "REMIT\\s*TO", "CLIENT\\s*NO", "CHARGEABLE\\s*WGT", "expeditors",
     "TERMINAL\\s*HANDLING", "FORWARDING\\s*FEE", "DOCUMENT\\s*FEE",
     "PROCESSING\\s*FEE", "VAT\\s*CATEGORY"]
  exclusions := ["세금계산서", "tax invoice"]
  minScore := 1

/-- Embeds `signature_patterns[DocumentType.TAX_INVOICE]`. -/
def taxInvoiceCfg : SignatureConfig where
  patterns :=
    ["세금계산서", "영세율전자세금계산서", "공급가액", "공급받는자",
     "사업자등록번호\\s*\\d\x7b3\x7d-\\d\x7b2\x7d-\\d\x7b5\x7d", "매출세금계산서",
     "부가가치세", "세액", "합계금액", "발급일자", "공급자상호", "승인번호.*\\d+",
     "eTradeInvoice"]
  exclusions := []
  minScore := 1

/-- Embeds `signature_patterns[DocumentType.BILL_OF_LADING]`. -/
def bolCfg : SignatureConfig where
  patterns :=
    ["bill\\s*of\\s*lading", "b/l\\s*(?:no\\.?|number)", "port\\s*of\\s*loading",
     "port\\s*of\\s*discharge", "선하증권", "vessel\\s*name"]
  exclusions := []
  minScore := 1

/-- Embeds `signature_patterns[DocumentType.EXPORT_DECLARATION]`. -/
def exportCfg : SignatureConfig where
  patterns :=
    ["수출신고필증", "수출신고서", "신고번호\\s*\\d+", "관세청",
     "export\\s*declaration", "통관"]
  exclusions := []
  minScore := 1

/-- Embeds `signature_patterns[DocumentType.REMITTANCE_ADVICE]`. -/
def remitCfg : SignatureConfig where
  patterns :=
    ["이체확인증", "송금확인", "송금증", "입금확인", "확인증", "출금|입금",
     "송금일자", "계좌번호", "출금계좌번호", "입금계좌번호",
     "transfer\\s*confirmation", "승인번호\\s*\\d+", "한국외환은행", "우리은행",
     "농협|농업협동조합"]
  exclusions := []
  minScore := 1

/-- Embeds `EnhancedDocumentDetector.signature_patterns` in dict insertion order. -/
def signaturePatterns : List (DocumentType × SignatureConfig) :=
  [(DocumentType.invoice, invoiceCfg), (DocumentType.tax_invoice, taxInvoiceCfg),
   (DocumentType.bill_of_lading, bolCfg), (DocumentType.export_declaration, exportCfg),
   (DocumentType.remittance_advice, remitCfg)]

/-- The pattern-matching loop shared by `_calculate_page_scores` and
`_detect_individual_documents`: `score += len(re.findall(pattern, page_text_lower))`
for every signature pattern, with the findall counts supplied by the oracle
`count`. -/
def pageConfigScore (count : String → String → Nat) (pageTextLower : String)
    (config : SignatureConfig) : Nat :=
  config.patterns.foldl (fun s p => s + count p pageTextLower) 0

/-- The exclusion loop shared by `_calculate_page_scores` and
`_detect_individual_documents`: `exclusion.lower() in page_text_lower`. -/
def pageConfigExcluded (pageTextLower : String) (config : SignatureConfig) : Bool :=
  config.exclusions.any (fun ex => listContains (lowerStr ex).data pageTextLower.data)

/-- One per-type entry produced by
`EnhancedDocumentDetector._calculate_page_scores`. -/
structure PageTypeScore where
  score : Nat
  excluded : Bool
  meetsThreshold : Bool
deriving DecidableEq

/-- The per-type body of `_calculate_page_scores` (lines 171-200): sum the
pattern match counts, force the score to 0 when an exclusion substring
occurs, and record the threshold test. -/
def calculatePageScore (count : String → String → Nat) (pageTextLower : String)
    (config : SignatureConfig) : PageTypeScore :=
  let score := pageConfigScore count pageTextLower config
  let excluded := pageConfigExcluded pageTextLower config
  let score := if excluded then 0 else score
  { score := score, excluded := excluded,
    meetsThreshold := decide (config.minScore ≤ score) && !excluded }

/-- Embeds `EnhancedDocumentDetector._calculate_page_scores` over all signature
types (the `page_num` argument only feeds logging and is dropped). -/
def calculatePageScores (count : String → String → Nat) (pageText : String) :
    List (DocumentType × PageTypeScore) :=
  signaturePatterns.map (fun p => (p.1, calculatePageScore count (lowerStr pageText) p.2))

/-- Embeds `EnhancedDocumentDetector._detect_individual_documents` (lines 305-353):
a type is detected on a page iff its summed pattern count reaches
`min_score` and no exclusion substring occurs; the emitted span covers just
this page and its confidence is `min(0.9, score / 5)`. -/
def detectIndividualDocuments (count : String → String → Nat) (pageText : String)
    (pageNum : Nat) : List (DocumentType × ℚ × (Nat × Nat)) :=
  signaturePatterns.foldl
    (fun detected cfgPair =>
      if cfgPair.2.minScore ≤ pageConfigScore count (lowerStr pageText) cfgPair.2 ∧
          pageConfigExcluded (lowerStr pageText) cfgPair.2 = false then
        detected ++
          [(cfgPair.1,
            min ((9 : ℚ)/10) ((pageConfigScore count (lowerStr pageText) cfgPair.2 : ℚ) / 5),
            (pageNum, pageNum))]
      else detected)
    []

/-- Embeds `EnhancedDocumentDetector.detect_documents_in_pages` (lines 118-159)
after `_split_into_pages` (the regex page split enters as the `pages` input):
per-page individual detection; the smart-merge phase is commented out in the
source (`merged_docs = individual_docs`), so the individual detections are
returned as-is. -/
def detectDocumentsInPages (count : String → String → Nat) (pages : List String) :
    List (DocumentType × ℚ × (Nat × Nat)) :=
  (List.enumFrom 1 pages).flatMap (fun pn => detectIndividualDocuments count pn.2 pn.1)

/-- The grouping loop of `_expand_document_ranges` (lines 272-281): walk the
sorted strong pages, extending the current group while the next page is at
most one past the group's last page. -/
def groupRunsGo : List Nat → List Nat → List (List Nat) → List (List Nat)
  | [], current, groups => groups ++ [current]
  | x :: rest, current, groups =>
    if x ≤ current.getLastD 0 + 1 then groupRunsGo rest (current ++ [x]) groups
    else groupRunsGo rest [x] (groups ++ [current])

/-- Group a sorted page list into maximal runs with gaps of at most 1. -/
def groupRuns : List Nat → List (List Nat)
  | [] => []
  | p :: rest => groupRunsGo rest [p] []

/-- The per-group range expansion of `_expand_document_ranges`
(lines 284-301): start from the group's first and last page, then move the
start to the closest weak page at most one before it and the end to the
closest weak page at most one after it. -/
def rangeOfGroup (weakSorted : List Nat) (group : List Nat) : Nat × Nat :=
  let startPage := group.headD 0
  let endPage := group.getLastD 0
  let startPage :=
    match weakSorted.reverse.find?
        (fun w => decide (w < startPage) && decide (startPage - 1 ≤ w)) with
    | some w => w
    | none => startPage
  let endPage :=
    match weakSorted.find? (fun w => decide (endPage < w) && decide (w ≤ endPage + 1)) with
    | some w => w
    | none => endPage
  (startPage, endPage)

/-- Embeds `EnhancedDocumentDetector._expand_document_ranges` (lines 260-303).
`total_pages` is accepted but unused in the source body as well. -/
def expandDocumentRanges (strongPages weakPages : List Nat) (_totalPages : Nat) :
    List (Nat × Nat) :=
  if strongPages = [] then []
  else
    (groupRuns (sortStable (fun a b => decide (a ≤ b)) strongPages)).map
      (rangeOfGroup (sortStable (fun a b => decide (a ≤ b)) weakPages))

/-- Dictionary access `scores.get(doc_type, {})` with nested
`.get('score', 0)` / `.get('meets_threshold', False)` defaults. -/
def scoreOf (scores : List (DocumentType × PageTypeScore)) (docType : DocumentType) :
    PageTypeScore :=
  match scores.lookup docType with
  | some info => info
  | none => { score := 0, excluded := false, meetsThreshold := false }

/-- The `for doc_type in DocumentType` loop of
`_detect_document_boundaries` skips only UNKNOWN (so MIXED is iterated,
though it never has scores). -/
def boundaryDocTypes : List DocumentType :=
  [DocumentType.invoice, DocumentType.export_declaration, DocumentType.bill_of_lading,
   DocumentType.tax_invoice, DocumentType.remittance_advice, DocumentType.mixed]

/-- The range accumulation loop of `_detect_document_boundaries`
(lines 237-244): total score over the covered, in-bounds pages and how many
such pages there are. -/
def rangeScoreStats (pageScores : List (Nat × String × List (DocumentType × PageTypeScore)))
    (docType : DocumentType) (startPage endPage : Nat) : Nat × Nat :=
  (List.range' startPage (endPage + 1 - startPage)).foldl
    (fun tv pageNum =>
      if pageNum ≤ pageScores.length then
        (tv.1 + (scoreOf (pageScores.getD (pageNum - 1) (0, "", [])).2.2 docType).score,
         tv.2 + 1)
      else tv)
    (0, 0)

/-- The per-type body of `_detect_document_boundaries` (lines 217-253):
collect strong / weak pages, expand ranges, and emit one document per range
with confidence `min(0.9, (total/valid) / 5)`. -/
def boundaryTypeDocs (pageScores : List (Nat × String × List (DocumentType × PageTypeScore)))
    (docType : DocumentType) : List (DocumentType × ℚ × (Nat × Nat)) :=
  let sw := pageScores.foldl
    (fun sw entry =>
      let info := scoreOf entry.2.2 docType
      if info.meetsThreshold = true then (sw.1 ++ [entry.1], sw.2)
      else if 0 < info.score then (sw.1, sw.2 ++ [entry.1])
      else sw)
    ([], [])
  if sw.1 = [] then []
  else
    (expandDocumentRanges sw.1 sw.2 pageScores.length).foldl
      (fun ds range =>
        if 0 < (rangeScoreStats pageScores docType range.1 range.2).2 then
          ds ++
            [(docType,
              min ((9 : ℚ)/10)
                ((((rangeScoreStats pageScores docType range.1 range.2).1 : ℚ) /
                  ((rangeScoreStats pageScores docType range.1 range.2).2 : ℚ)) / 5),
              (range.1, range.2))]
        else ds)
      []

/-- Embeds `EnhancedDocumentDetector._detect_document_boundaries` (lines 207-258):
per-type boundary detection followed by the stable sort on descending
confidence. -/
def detectDocumentBoundaries
    (pageScores : List (Nat × String × List (DocumentType × PageTypeScore))) :
    List (DocumentType × ℚ × (Nat × Nat)) :=
  sortStable (fun a b => decide (b.2.1 ≤ a.2.1))
    (boundaryDocTypes.foldl (fun acc docType => acc ++ boundaryTypeDocs pageScores docType) [])

/-- The allow-list of `_should_merge_documents`. -/
def mergeableTypes : List DocumentType :=
  [DocumentType.bill_of_lading, DocumentType.export_declaration]

/-- Embeds `EnhancedDocumentDetector._should_merge_documents` (lines 407-425):
types outside the allow-list return False immediately, and the allow-listed
types also fall through to the final conservative `return False`. -/
def shouldMergeDocuments (docType : DocumentType) (_page1 _page2 : Nat) : Bool :=
  if docType ∉ mergeableTypes then false else false

/-- One keyword entry of `DocumentTypeDetector.type_keywords`. -/
structure TypeKeywords where
  primary : List String
  secondary : List String
  negative : List String

/-- Embeds `type_keywords[DocumentType.TAX_INVOICE]`. -/
def taxInvoiceKw : TypeKeywords where
  primary := ["세금계산서", "tax invoice", "공급가액", "세액", "부가가치세",
              "매출세금계산서", "정발행"]
  secondary := ["사업자등록번호", "합계금액", "공급자", "공급받는자", "발행일자",
                "승인번호", "일련번호"]
  negative := []

/-- Embeds `type_keywords[DocumentType.INVOICE]`. -/
def invoiceKw : TypeKeywords where
  primary := ["invoice", "commercial invoice", "proforma invoice", "인보이스",
              "상업송장", "운임", "freight"]
  secondary := ["description", "quantity", "unit price", "amount", "total",
                "화물운송료", "운송비", "내역"]
  negative := ["세금계산서", "tax invoice"]

/-- Embeds `type_keywords[DocumentType.BILL_OF_LADING]`. -/
def bolKw : TypeKeywords where
  primary := ["bill of lading", "b/l", "bl", "선하증권", "house b/l", "master b/l"]
  secondary := ["port of loading", "port of discharge", "vessel", "voyage", "shipper",
                "consignee", "p.o.l", "p.o.d", "선박명"]
  negative := []

/-- Embeds `type_keywords[DocumentType.EXPORT_DECLARATION]`. -/
def exportKw : TypeKeywords where
  primary := ["수출신고", "export declaration", "신고번호", "수출신고필증", "관세청"]
  secondary := ["세번", "hs code", "목적국", "적재항", "송품장", "수출신고서", "통관"]
  negative := []

/-- Embeds `type_keywords[DocumentType.REMITTANCE_ADVICE]`. -/
def remitKw : TypeKeywords where
  primary := ["이체확인", "transfer confirmation", "송금확인", "송금증", "입금확인",
              "결제확인"]
  secondary := ["승인번호", "계좌번호", "송금금액", "approval", "account", "은행명",
                "입금액"]
  negative := []

/-- Embeds `DocumentTypeDetector.type_keywords` in dict insertion order. -/
def typeKeywords : List (DocumentType × TypeKeywords) :=
  [(DocumentType.tax_invoice, taxInvoiceKw), (DocumentType.invoice, invoiceKw),
   (DocumentType.bill_of_lading, bolKw), (DocumentType.export_declaration, exportKw),
   (DocumentType.remittance_advice, remitKw)]

/-- The scoring loops of `DocumentTypeDetector.detect_document_type`
(lines 476-498): `text_lower.count(keyword.lower())` occurrences weighted
3 / 1 / -2 for primary / secondary / negative keywords. -/
def keywordScore (textLower : String) (kw : TypeKeywords) : Int :=
  let s1 := kw.primary.foldl
    (fun s k => if 0 < strCount (lowerStr k) textLower then
      s + (strCount (lowerStr k) textLower : Int) * 3 else s) 0
  let s2 := kw.secondary.foldl
    (fun s k => if 0 < strCount (lowerStr k) textLower then
      s + (strCount (lowerStr k) textLower : Int) * 1 else s) s1
  kw.negative.foldl
    (fun s k => if 0 < strCount (lowerStr k) textLower then
      s - (strCount (lowerStr k) textLower : Int) * 2 else s) s2

/-- Python `max(scores.items(), key=score)`: the first item with the
maximal score (later items replace only on strictly greater score). -/
def pickMaxScore (first : DocumentType × Int) (rest : List (DocumentType × Int)) :
    DocumentType × Int :=
  rest.foldl (fun best y => if best.2 < y.2 then y else best) first

/-- Embeds `DocumentTypeDetector.detect_document_type` (lines 458-523). -/
def detectDocumentType (text : String) : DocumentType × ℚ :=
  if text = "" ∨ (trimS text).length < 20 then (DocumentType.unknown, 0)
  else
    let textLower := lowerStr text
    let scores := typeKeywords.map (fun p => (p.1, keywordScore textLower p.2))
    if scores = [] ∨ scores.all (fun p => decide (p.2 ≤ 0)) then (DocumentType.unknown, 0)
    else
      match scores with
      | [] => (DocumentType.unknown, 0)
      | first :: rest =>
        let best := pickMaxScore first rest
        let kw :=
          match typeKeywords.lookup best.1 with
          | some k => k
          | none => { primary := [], secondary := [], negative := [] }
        let totalKeywords := kw.primary.length + kw.secondary.length
        (best.1, min 1 ((best.2 : ℚ) / ((totalKeywords : ℚ) * 2)))

/-- Embeds `models.DocumentDetection` restricted to the fields the claims mention
(`key_indicators` and `extracted_data` are carried alongside in the source
and never influence these fields). -/
structure DocumentDetectionE where
  documentType : DocumentType
  confidence : ℚ
  pageRange : Nat × Nat
deriving DecidableEq

/-- The fields of `models.PDFProcessingResult` that the claims mention. -/
structure ProcessOutcome where
  detectedDocuments : List DocumentDetectionE
  status : ProcessingStatus
  errors : List String
  warnings : List String
deriving DecidableEq

/-- The detection-assembly step of `PDFProcessor.process_pdf`
(lines 913-975) on the no-exception path: one detection per
enhanced-detector hit; if there are none, fall back to a single detection
from the legacy whole-text detector covering `(1, total_pages or 1)`; the
status becomes COMPLETED, `add_error` runs only in the exception handler,
and `add_warning` is never called. -/
def processPdfDetections (multipleDocs : List (DocumentType × ℚ × (Nat × Nat)))
    (fallback : DocumentType × ℚ) (totalPages : Nat) : ProcessOutcome :=
  let detections := multipleDocs.map
    (fun d => DocumentDetectionE.mk d.1 d.2.1 d.2.2)
  let detections :=
    if detections = [] then
      [DocumentDetectionE.mk fallback.1 fallback.2
        (1, if totalPages = 0 then 1 else totalPages)]
    else detections
  { detectedDocuments := detections, status := ProcessingStatus.completed,
    errors := [], warnings := [] }

/-- Embeds `models.FieldData` restricted to the fields the claims mention
(`create_field_data` also stores the engine and a page number, which the
extractor never varies). -/
structure FieldDataE where
  value : String
  confidence : ℚ
deriving DecidableEq

/-- Embeds `DataExtractor._try_multiple_patterns`, with the running 0-based pattern
index `i` made explicit: the first pattern whose `search` succeeds wins and
its value is returned with confidence `max(0.5, confidence - i * 0.1)`.
Each list entry models `pattern.search(text)` followed by
`_safe_group_extract(match, 1)` (the extracted, stripped group). -/
def tryMultiplePatternsGo (text : String) (confidence : ℚ) :
    List (String → Option String) → Nat → Option (String × ℚ)
  | [], _ => none
  | p :: rest, i =>
    match p text with
    | some v => some (v, max (1/2) (confidence - (i : ℚ) * (1/10)))
    | none => tryMultiplePatternsGo text confidence rest (i + 1)

/-- Embeds `DataExtractor._try_multiple_patterns` (lines 168-178). -/
def tryMultiplePatterns (patternsList : List (String → Option String)) (text : String)
    (confidence : ℚ) : Option (String × ℚ) :=
  tryMultiplePatternsGo text confidence patternsList 0

/-- The separator classes of the `date_kr` regex
`\d{4}[-./년]\s*\d{1,2}[-./월]\s*\d{1,2}[-./일]?`. -/
def yearSeps : List Char := ['-', '.', '/', '년']

/-- Month separators of `date_kr`. -/
def monthSeps : List Char := ['-', '.', '/', '월']

/-- Day separators of `date_kr`. -/
def daySeps : List Char := ['-', '.', '/', '일']

/-- Greedy match of `\d{1,2}[seps]` at the start of a character list:
try two digits plus separator first, then one digit plus separator.
Returns the consumed characters and the rest. -/
def matchNumSep (seps : List Char) (s : List Char) : Option (List Char × List Char) :=
  match s with
  | a :: b :: c :: rest =>
    if a.isDigit ∧ b.isDigit ∧ c ∈ seps then some ([a, b, c], rest)
    else if a.isDigit ∧ b ∈ seps then some ([a, b], c :: rest)
    else none
  | [a, b] => if a.isDigit ∧ b ∈ seps then some ([a, b], []) else none
  | _ => none

/-- Greedy match of `\d{1,2}[seps]?` at the start of a character list. -/
def matchNumOptSep (seps : List Char) (s : List Char) : Option (List Char × List Char) :=
  match s with
  | a :: b :: c :: rest =>
    if a.isDigit ∧ b.isDigit then
      if c ∈ seps then some ([a, b, c], rest) else some ([a, b], c :: rest)
    else if a.isDigit then
      if b ∈ seps then some ([a, b], c :: rest) else some ([a], b :: c :: rest)
    else none
  | [a, b] =>
    if a.isDigit ∧ b.isDigit then some ([a, b], [])
    else if a.isDigit ∧ b ∈ seps then some ([a, b], [])
    else if a.isDigit then some ([a], [b])
    else none
  | [a] => if a.isDigit then some ([a], []) else none
  | [] => none

/-- Match the whole `date_kr` regex at the start of a character list,
returning the matched characters (regex group 0). -/
def matchDateKrAt (s : List Char) : Option (List Char) :=
  match s with
  | d1 :: d2 :: d3 :: d4 :: sep1 :: rest =>
    if d1.isDigit ∧ d2.isDigit ∧ d3.isDigit ∧ d4.isDigit ∧ sep1 ∈ yearSeps then
      let ws1 := rest.takeWhile Char.isWhitespace
      let rest1 := rest.dropWhile Char.isWhitespace
      match matchNumSep monthSeps rest1 with
      | some mr =>
        let ws2 := mr.2.takeWhile Char.isWhitespace
        let rest2 := mr.2.dropWhile Char.isWhitespace
        match matchNumOptSep daySeps rest2 with
        | some dr => some ([d1, d2, d3, d4, sep1] ++ ws1 ++ mr.1 ++ ws2 ++ dr.1)
        | none => none
      | none => none
    else none
  | _ => none

/-- Leftmost `date_kr` match in a character list (`re.search` semantics). -/
def dateKrSearchList : List Char → Option (List Char)
  | [] => none
  | c :: rest =>
    match matchDateKrAt (c :: rest) with
    | some m => some m
    | none => dateKrSearchList rest

/-- Embeds `self.patterns["date_kr"].search(text)` of
`DataExtractor._compile_patterns` (line 57), returning group 0. -/
def dateKrSearch (text : String) : Option String :=
  (dateKrSearchList text.data).map (fun l => ⟨l⟩)

/-- Remove every occurrence of a character (Python `str.replace(c, '')`). -/
def removeChar (c : Char) (l : List Char) : List Char := l.filter (fun x => x ≠ c)

/-- Embeds `value.replace(',', '').replace('₩', '').strip()` of
`_extract_tax_invoice_data`. -/
def cleanAmount (v : String) : String := trimS ⟨removeChar '₩' (removeChar ',' v.data)⟩

/-- Embeds `value.replace(',', '').replace('₩', '').replace('$', '').strip()` of
`_extract_transfer_confirmation_data`. -/
def cleanTransferAmount (v : String) : String :=
  trimS ⟨removeChar '$' (removeChar '₩' (removeChar ',' v.data))⟩

/-- Embeds `DataExtractor._extract_tax_invoice_data` (lines 358-439) as an ordered
field map. `search` is the regex oracle: regex source ↦ text ↦ extracted
group of the first match (already stripped, as `_safe_group_extract` does);
only `date_kr` (line 412, stored under `issue_date` from group 0) is
implemented directly via `dateKrSearch`. -/
def extractTaxInvoiceData (search : String → String → Option String) (text : String) :
    List (String × FieldDataE) :=
  let data : List (String × FieldDataE) := []
  let data := data ++
    (match tryMultiplePatterns
        [search "(?:세금계산서|tax invoice).*?번호.*?([0-9-]+)",
         search "계산서.*?번호.*?([0-9-]+)",
         search "번호.*?(\\d\x7b4\x7d년.*\\d\x7b2\x7d월.*\\d\x7b2\x7d일.*\\d+)"]
        text ((9 : ℚ)/10) with
      | some vc => [("tax_invoice_number", FieldDataE.mk vc.1 vc.2)]
      | none => [])
  let data := data ++
    (match tryMultiplePatterns
        [search "공급가액.*?([₩]?\\s*[\\d,]+)", search "공급.*?가액.*?([₩]?\\s*[\\d,]+)"]
        text ((9 : ℚ)/10) with
      | some vc => [("supply_amount", FieldDataE.mk (cleanAmount vc.1) vc.2)]
      | none => [])
  let data := data ++
    (match tryMultiplePatterns
        [search "세액.*?([₩]?\\s*[\\d,]+)", search "부가세.*?([₩]?\\s*[\\d,]+)"]
        text ((9 : ℚ)/10) with
      | some vc => [("tax_amount", FieldDataE.mk (cleanAmount vc.1) vc.2)]
      | none => [])
  let data := data ++
    (match tryMultiplePatterns
        [search "합계.*?([₩]?\\s*[\\d,]+)", search "총.*?금액.*?([₩]?\\s*[\\d,]+)"]
        text ((9 : ℚ)/10) with
      | some vc => [("total_amount", FieldDataE.mk (cleanAmount vc.1) vc.2)]
      | none => [])
  let data := data ++
    (match dateKrSearch text with
      | some m => [("issue_date", FieldDataE.mk (trimS m) ((4 : ℚ)/5))]
      | none => [])
  let data := data ++
    (match search "공급자.*?상호.*?:?\\s*(.+?)(?:\\n|$)" text with
      | some v => [("supplier_name", FieldDataE.mk (trimS v) ((4 : ℚ)/5))]
      | none => [])
  let data := data ++
    (match search "공급받는자.*?상호.*?:?\\s*(.+?)(?:\\n|$)" text with
      | some v => [("buyer_name", FieldDataE.mk (trimS v) ((4 : ℚ)/5))]
      | none => [])
  data

/-- The first-match loop over the four `supplier_patterns` of
`_extract_transfer_confirmation_data` (lines 681-694). -/
def firstSupplierMatch (search : String → String → Option String) (text : String) :
    Option String :=
  match search "예금주\\s*:?\\s*(.+?)(?:\\n|$)" text with
  | some v => some v
  | none =>
    match search "수신자\\s*:?\\s*(.+?)(?:\\n|$)" text with
    | some v => some v
    | none =>
      match search "받는\\s*사람\\s*:?\\s*(.+?)(?:\\n|$)" text with
      | some v => some v
      | none => search "입금\\s*받는\\s*자\\s*:?\\s*(.+?)(?:\\n|$)" text

/-- Embeds `DataExtractor._extract_transfer_confirmation_data` (lines 631-699) as an
ordered field map; `transfer_date` (line 673) stores group 0 of the
`date_kr` search, implemented directly via `dateKrSearch`. -/
def extractTransferConfirmationData (search : String → String → Option String)
    (text : String) : List (String × FieldDataE) :=
  let data : List (String × FieldDataE) := []
  let data := data ++
    (match search "승인번호.*?([0-9-]+)" text with
      | some v => [("approval_number", FieldDataE.mk (trimS v) ((9 : ℚ)/10))]
      | none => [])
  let data := data ++
    (match search "(?:송금)?금액.*?([₩$]?\\s*[0-9,]+)" text with
      | some v => [("transfer_amount", FieldDataE.mk (cleanTransferAmount v) ((9 : ℚ)/10))]
      | none => [])
  let data := data ++
    (match search "은행.*?:?\\s*(.+?)(?:\\n|$)" text with
      | some v => [("bank_name", FieldDataE.mk (trimS v) ((4 : ℚ)/5))]
      | none => [])
  let data := data ++
    (match search "\\d\x7b3,4\x7d-\\d\x7b2,4\x7d-\\d\x7b4,8\x7d" text with
      | some v => [("account_number", FieldDataE.mk (trimS v) ((9 : ℚ)/10))]
      | none => [])
  let data := data ++
    (match dateKrSearch text with
      | some m => [("transfer_date", FieldDataE.mk (trimS m) ((4 : ℚ)/5))]
      | none => [])
  let data := data ++
    (match firstSupplierMatch search text with
      | some v => [("supplier_name", FieldDataE.mk (trimS v) ((9 : ℚ)/10))]
      | none => [])
  data

/-- Modelled from the spec: the normalized `YYYY-MM-DD` shape the spec says
date values are stored in (four digits, dash, two digits, dash, two
digits). -/
def isYyyyMmDd (s : String) : Bool :=
  match s.data with
  | [y1, y2, y3, y4, h1, m1, m2, h2, d1, d2] =>
    y1.isDigit && y2.isDigit && y3.isDigit && y4.isDigit && h1 == '-' &&
      m1.isDigit && m2.isDigit && h2 == '-' && d1.isDigit && d2.isDigit
  | _ => false

/-- Modelled from the spec (claim C3): the claimed per-page per-type score,
with weight 3 per primary-pattern occurrence, 1 per secondary occurrence,
minus 2 per exclusion occurrence, and the whole score forced to 0 when an
exclusion occurs. -/
def claimedPageScore (primaryCounts secondaryCounts exclusionCounts : List Nat) : Int :=
  if exclusionCounts.any (fun c => 0 < c) then 0
  else
    3 * ((primaryCounts.map (Int.ofNat)).sum) + (secondaryCounts.map (Int.ofNat)).sum -
      2 * ((exclusionCounts.map (Int.ofNat)).sum)

/-- Concrete engine-run outcome where every engine raises. -/
def runAllErr : ExtractionEngine → EngineOutcome := fun _ => EngineOutcome.err "boom"

/-- A 51-character extraction result (strictly longer than every local
engine's 50-character minimum). -/
def longText : String := "abcdefghijabcdefghijabcdefghijabcdefghijabcdefghijk"

/-- Concrete engine-run outcome: Upstage raises, PyMuPDF succeeds with a
long text, the rest raise. -/
def runPymupdfOk : ExtractionEngine → EngineOutcome := fun e =>
  match e with
  | ExtractionEngine.pymupdf => EngineOutcome.ok longText
  | _ => EngineOutcome.err "down"

/-- Match-count oracle for the one-line page "bill of lading": exactly the
first BILL_OF_LADING signature regex matches once
(`re.findall(r'bill\s*of\s*lading', "bill of lading")` has one element; no
other signature regex matches this page). -/
def countBol : String → String → Nat := fun p t =>
  if p = "bill\\s*of\\s*lading" ∧ t = "bill of lading" then 1 else 0

/-- Four identical bill-of-lading pages. -/
def pagesBol : List String :=
  ["bill of lading", "bill of lading", "bill of lading", "bill of lading"]

/-- Page ranges of a detection list. -/
def spansOf (l : List (DocumentType × ℚ × (Nat × Nat))) : List (Nat × Nat) :=
  l.map (fun d => d.2.2)

/-- Match-count oracle for a page on which no signature regex matches. -/
def countZero : String → String → Nat := fun _ _ => 0

/-- A 21-character page ("a" * 21) that no detector keyword or signature
regex matches, but that is long enough to pass the 20-character guard of
`detect_document_type`. -/
def aText : String := "aaaaaaaaaaaaaaaaaaaaa"

/-- Match-count oracle for the one-line page "세금계산서": exactly the first
TAX_INVOICE signature regex matches once
(`re.findall(r'세금계산서', "세금계산서")` has one element; no other
signature regex matches this page). -/
def countTaxOnce : String → String → Nat := fun p t =>
  if p = "세금계산서" ∧ t = "세금계산서" then 1 else 0

/-- Search oracle for the page "발급일자 2024년 3월 5일": none of the
oracle-modelled extraction regexes (which all require anchors like 번호,
공급가액, 세액, 합계, 상호, 은행, 금액 or an account shape) matches it. -/
def searchNone : String → String → Option String := fun _ _ => none

/-- A page containing a recognizable Korean date. -/
def dateCexText : String := "발급일자 2024년 3월 5일"

/-- Concrete pattern list for the confidence witness: the first pattern
fails, the second matches with value "X". -/
def patsWitness : List (String → Option String) :=
  [fun _ => none, fun _ => some "X"]

/-- Concrete boundary-detection input: one page whose bill-of-lading score
is 5 and meets the threshold. -/
def pageScoresW : List (Nat × String × List (DocumentType × PageTypeScore)) :=
  [(1, "bill of lading page",
    [(DocumentType.bill_of_lading,
      { score := 5, excluded := false, meetsThreshold := true })])]

theorem tryEngines_ok_iff (run : ExtractionEngine → EngineOutcome)
    (order : List ExtractionEngine) (lastError : Option String)
    (t : String) (e : ExtractionEngine) :
    tryEngines run order lastError = .ok (t, e) ↔
      (order.find? (acceptedBy run) = some e ∧
        ∃ s, run e = EngineOutcome.ok s ∧ t = cleanText s) := by
  induction order generalizing lastError with
  | nil => simp [tryEngines]
  | cons x rest ih =>
    cases hx : run x with
    | ok tx =>
      by_cases hacc : tx ≠ "" ∧ minLength x < (trimS tx).length
      · have haccb : acceptedBy run x = true := by
          simp [acceptedBy, hx, hacc.1, hacc.2]
        rw [List.find?_cons_of_pos _ haccb]
        simp only [tryEngines, hx, if_pos hacc]
        constructor
        · intro h
          have h1 : cleanText tx = t ∧ x = e := by
            have := h
            simp only [Except.ok.injEq, Prod.mk.injEq] at this
            exact this
          obtain ⟨ht, he⟩ := h1
          subst he
          exact ⟨rfl, tx, hx, ht.symm⟩
        · rintro ⟨he, s, hs, ht⟩
          have he' : e = x := by simpa using he.symm
          subst he'
          rw [hx] at hs
          cases hs
          simp [ht]
      · have haccb : acceptedBy run x = false := by
          simp only [acceptedBy, hx]
          by_cases h1 : tx = ""
          · simp [h1]
          · have h2 : ¬ minLength x < (trimS tx).length := fun hl => hacc ⟨h1, hl⟩
            simp [h1, h2]
        rw [List.find?_cons_of_neg _ (by simp [haccb])]
        simp only [tryEngines, hx, if_neg hacc]
        exact ih lastError
    | err msg =>
      have haccb : acceptedBy run x = false := by simp [acceptedBy, hx]
      rw [List.find?_cons_of_neg _ (by simp [haccb])]
      simp only [tryEngines, hx]
      exact ih (some msg)

theorem tryEngines_all_fail (run : ExtractionEngine → EngineOutcome)
    (order : List ExtractionEngine) (init : Option String)
    (hfail : ∀ e ∈ order, acceptedBy run e = false) :
    tryEngines run order init =
      .error (order.foldl
        (fun acc engine => match run engine with | .err msg => some msg | .ok _ => acc) init) := by
  induction order generalizing init with
  | nil => simp [tryEngines]
  | cons x rest ih =>
    have hx := hfail x (List.mem_cons_self x rest)
    have hrest : ∀ e ∈ rest, acceptedBy run e = false :=
      fun e he => hfail e (List.mem_cons_of_mem x he)
    cases hrun : run x with
    | ok tx =>
      have hns : ¬ (tx ≠ "" ∧ minLength x < (trimS tx).length) := by
        intro hc
        rw [acceptedBy, hrun] at hx
        simp [hc.1, hc.2] at hx
      simp only [tryEngines, hrun, if_neg hns, List.foldl_cons]
      exact ih init hrest
    | err msg =>
      simp only [tryEngines, hrun, List.foldl_cons]
      exact ih (some msg) hrest

/-- C1: for every assignment of engine-run outcomes and every preferred
engine, `extract_text_from_pdf` tries engines in the order: the preferred
engine first, then the remaining engines of the fixed default priority
(Upstage, PyMuPDF, pdfplumber, Tesseract) with the preferred one removed;
the minimum acceptable trimmed length is 20 for the cloud engine (Upstage)
and 50 for every other engine; and the call returns (the cleaned text of)
the first engine in that order whose trimmed text length strictly exceeds
its threshold. -/
theorem engine_order_first_acceptance (run : ExtractionEngine → EngineOutcome)
    (preferred : ExtractionEngine) :
    getEngineOrder preferred = preferred :: defaultOrder.filter (fun e => e ≠ preferred)
    ∧ minLength ExtractionEngine.upstage = 20
    ∧ (∀ e : ExtractionEngine, e ≠ ExtractionEngine.upstage → minLength e = 50)
    ∧ ∀ t e, extractTextFromPdf run preferred = Except.ok (t, e) ↔
        ((getEngineOrder preferred).find? (acceptedBy run) = some e ∧
          ∃ s, run e = EngineOutcome.ok s ∧ t = cleanText s) := by
  refine ⟨?_, rfl, ?_, ?_⟩
  · have hmem : preferred ∈ defaultOrder := by cases preferred <;> decide
    rw [getEngineOrder, if_pos hmem]
  · intro e he
    cases e with
    | upstage => exact absurd rfl he
    | pdfplumber => rfl
    | pymupdf => rfl
    | tesseract => rfl
  · intro t e
    exact tryEngines_ok_iff run (getEngineOrder preferred) none t e

/-- Witness for C1: with Upstage preferred but raising and PyMuPDF
returning 51 characters, the result comes from PyMuPDF. -/
theorem engine_order_first_acceptance_witness :
    extractTextFromPdf runPymupdfOk ExtractionEngine.upstage =
      Except.ok (cleanText longText, ExtractionEngine.pymupdf) := by
  refine ((engine_order_first_acceptance runPymupdfOk ExtractionEngine.upstage).2.2.2
      (cleanText longText) ExtractionEngine.pymupdf).mpr ⟨?_, longText, rfl, rfl⟩
  decide

/-- C2: if every engine in the attempt order fails (raises, or returns text
no longer than its threshold), `extract_text_from_pdf` raises a single
all-engines-failed error carrying the most recently raised engine error as
its cause; and an engine failure followed by a later accepted engine is not
surfaced: the call returns that engine's result with no error. -/
theorem all_providers_exhausted (run : ExtractionEngine → EngineOutcome)
    (preferred : ExtractionEngine) :
    ((∀ e ∈ getEngineOrder preferred, acceptedBy run e = false) →
      extractTextFromPdf run preferred =
        Except.error (lastRaisedError run (getEngineOrder preferred)))
    ∧ ∀ e, (getEngineOrder preferred).find? (acceptedBy run) = some e →
        ∃ s, run e = EngineOutcome.ok s ∧
          extractTextFromPdf run preferred = Except.ok (cleanText s, e) := by
  constructor
  · intro hfail
    exact tryEngines_all_fail run (getEngineOrder preferred) none hfail
  · intro e hfind
    have hacc := List.find?_some hfind
    cases hrun : run e with
    | ok s =>
      exact ⟨s, rfl,
        (tryEngines_ok_iff run (getEngineOrder preferred) none (cleanText s) e).mpr
          ⟨hfind, s, hrun, rfl⟩⟩
    | err m => simp [acceptedBy, hrun] at hacc

/-- Witness for C2: all engines raising "boom" yields the exhaustion error
with cause "boom"; Upstage and Tesseract failing but PyMuPDF succeeding
yields PyMuPDF's result with no error. -/
theorem all_providers_exhausted_witness :
    extractTextFromPdf runAllErr ExtractionEngine.upstage = Except.error (some "boom")
    ∧ extractTextFromPdf runPymupdfOk ExtractionEngine.tesseract =
        Except.ok (cleanText longText, ExtractionEngine.pymupdf) := by
  constructor
  · have h := (all_providers_exhausted runAllErr ExtractionEngine.upstage).1 (by decide)
    rw [h]; rfl
  · obtain ⟨s, hs, hres⟩ := (all_providers_exhausted runPymupdfOk ExtractionEngine.tesseract).2
      ExtractionEngine.pymupdf (by decide)
    rw [show runPymupdfOk ExtractionEngine.pymupdf = EngineOutcome.ok longText from rfl] at hs
    cases hs
    exact hres

theorem sortStable_cons {α : Type} (r : α → α → Bool) (x : α) (xs : List α) :
    sortStable r (x :: xs) = insertOrdered r x (sortStable r xs) := rfl

theorem mem_insertOrdered {α : Type} (r : α → α → Bool) (x : α) (l : List α) (d : α) :
    d ∈ insertOrdered r x l ↔ d = x ∨ d ∈ l := by
  induction l with
  | nil => simp [insertOrdered]
  | cons y ys ih =>
    rw [insertOrdered]
    split
    · simp
    · simp only [List.mem_cons, ih]
      tauto

theorem mem_sortStable {α : Type} (r : α → α → Bool) (l : List α) (d : α) :
    d ∈ sortStable r l ↔ d ∈ l := by
  induction l with
  | nil => simp [sortStable]
  | cons x xs ih =>
    rw [sortStable_cons, mem_insertOrdered]
    simp [ih]

theorem mem_foldl_append {α β : Type} (f : α → List β) (l : List α) :
    ∀ (init : List β) (d : β),
      d ∈ l.foldl (fun acc x => acc ++ f x) init ↔ d ∈ init ∨ ∃ x ∈ l, d ∈ f x := by
  induction l with
  | nil => simp
  | cons x xs ih =>
    intro init d
    rw [List.foldl_cons, ih]
    simp only [List.mem_append, List.mem_cons]
    constructor
    · rintro (⟨h | h⟩ | ⟨y, hy, hd⟩)
      · exact Or.inl h
      · exact Or.inr ⟨x, Or.inl rfl, h⟩
      · exact Or.inr ⟨y, Or.inr hy, hd⟩
    · rintro (h | ⟨y, (rfl | hy), hd⟩)
      · exact Or.inl (Or.inl h)
      · exact Or.inl (Or.inr hd)
      · exact Or.inr ⟨y, hy, hd⟩

theorem mem_foldl_condAppend {α β : Type} (f : α → β) (P : α → Prop) [DecidablePred P]
    (l : List α) :
    ∀ (init : List β) (d : β),
      d ∈ l.foldl (fun acc x => if P x then acc ++ [f x] else acc) init ↔
        d ∈ init ∨ ∃ x ∈ l, P x ∧ d = f x := by
  induction l with
  | nil => simp
  | cons x xs ih =>
    intro init d
    rw [List.foldl_cons]
    by_cases hx : P x
    · rw [if_pos hx, ih]
      simp only [List.mem_append, List.mem_cons, List.not_mem_nil, or_false]
      constructor
      · rintro (⟨h | h⟩ | ⟨y, hy, hP, hd⟩)
        · exact Or.inl h
        · exact Or.inr ⟨x, Or.inl rfl, hx, h⟩
        · exact Or.inr ⟨y, Or.inr hy, hP, hd⟩
      · rintro (h | ⟨y, (rfl | hy), hP, hd⟩)
        · exact Or.inl (Or.inl h)
        · exact Or.inl (Or.inr hd)
        · exact Or.inr ⟨y, hy, hP, hd⟩
    · rw [if_neg hx, ih]
      simp only [List.mem_cons]
      constructor
      · rintro (h | ⟨y, hy, hP, hd⟩)
        · exact Or.inl h
        · exact Or.inr ⟨y, Or.inr hy, hP, hd⟩
      · rintro (h | ⟨y, (rfl | hy), hP, hd⟩)
        · exact Or.inl h
        · exact absurd hP hx
        · exact Or.inr ⟨y, hy, hP, hd⟩

theorem foldl_add_eq_sum {α : Type} (f : α → Nat) (l : List α) :
    ∀ a, l.foldl (fun s p => s + f p) a = a + (l.map f).sum := by
  induction l with
  | nil => simp
  | cons x xs ih =>
    intro a
    rw [List.foldl_cons, ih]
    simp [Nat.add_assoc]

theorem pageConfigScore_eq_sum (count : String → String → Nat) (pageTextLower : String)
    (config : SignatureConfig) :
    pageConfigScore count pageTextLower config =
      (config.patterns.map (fun p => count p pageTextLower)).sum := by
  rw [pageConfigScore, foldl_add_eq_sum]
  simp

theorem foldl_guard_mul {α : Type} (f : α → Nat) (w : Int) (l : List α) :
    ∀ a : Int,
      l.foldl (fun s k => if 0 < f k then s + (f k : Int) * w else s) a =
        a + w * ((l.map (fun k => (f k : Int))).sum) := by
  induction l with
  | nil => simp
  | cons x xs ih =>
    intro a
    rw [List.foldl_cons]
    by_cases h : 0 < f x
    · rw [if_pos h, ih]
      simp only [List.map_cons, List.sum_cons]
      ring
    · rw [if_neg h, ih]
      have hz : f x = 0 := by omega
      simp [hz]

theorem foldl_guard_mul_sub {α : Type} (f : α → Nat) (l : List α) :
    ∀ a : Int,
      l.foldl (fun s k => if 0 < f k then s - (f k : Int) * 2 else s) a =
        a - 2 * ((l.map (fun k => (f k : Int))).sum) := by
  induction l with
  | nil => simp
  | cons x xs ih =>
    intro a
    rw [List.foldl_cons]
    by_cases h : 0 < f x
    · rw [if_pos h, ih]
      simp only [List.map_cons, List.sum_cons]
      ring
    · rw [if_neg h, ih]
      have hz : f x = 0 := by omega
      simp [hz]

theorem keywordScore_closed (textLower : String) (kw : TypeKeywords) :
    keywordScore textLower kw =
      3 * ((kw.primary.map (fun k => (strCount (lowerStr k) textLower : Int))).sum)
      + (kw.secondary.map (fun k => (strCount (lowerStr k) textLower : Int))).sum
      - 2 * ((kw.negative.map (fun k => (strCount (lowerStr k) textLower : Int))).sum) := by
  simp only [keywordScore]
  rw [foldl_guard_mul (fun k => strCount (lowerStr k) textLower) 3,
    foldl_guard_mul (fun k => strCount (lowerStr k) textLower) 1,
    foldl_guard_mul_sub (fun k => strCount (lowerStr k) textLower)]
  ring

/-- C3 counterexample: on the one-line page "세금계산서" the per-page score
of the tax-invoice type is 1 (each pattern occurrence counts 1), not the
claimed 3 (weight 3 per primary occurrence); and in the keyword scorer that
does use weights 3, 1, minus 2 (`detect_document_type`), the page
"invoice tax invoice" contains the invoice type's exclusion "tax invoice"
yet scores 4, not the claimed forced 0. -/
theorem page_score_weights_cex :
    (calculatePageScore countTaxOnce (lowerStr "세금계산서") taxInvoiceCfg).score = 1
    ∧ claimedPageScore [1] [] [] = 3
    ∧ ¬(((calculatePageScore countTaxOnce (lowerStr "세금계산서") taxInvoiceCfg).score : Int) =
        claimedPageScore [1] [] [])
    ∧ keywordScore (lowerStr "invoice tax invoice") invoiceKw = 4
    ∧ keywordScore (lowerStr "invoice tax invoice") invoiceKw ≠ 0
    ∧ 0 < strCount (lowerStr "tax invoice") (lowerStr "invoice tax invoice") := by
  exact ⟨by decide, by decide, by decide, by decide, by decide, by decide⟩

/-- C3 amended: the per-page per-type score of `_calculate_page_scores`
counts every signature-pattern occurrence with weight 1 (there is no
primary/secondary split and no subtraction), a type with an occurring
exclusion substring is forced to score exactly 0, and the type meets the
threshold iff its score is at least the per-type minimum and it is not
excluded; the 3, 1, minus 2 weighting lives in the separate whole-text scorer
`detect_document_type`, which neither forces excluded scores to 0 nor
applies a threshold. -/
theorem page_score_amended (count : String → String → Nat) (pageTextLower : String)
    (config : SignatureConfig) (textLower : String) (kw : TypeKeywords) :
    ((calculatePageScore count pageTextLower config).score =
      if pageConfigExcluded pageTextLower config = true then 0
      else (config.patterns.map (fun p => count p pageTextLower)).sum)
    ∧ ((calculatePageScore count pageTextLower config).meetsThreshold = true ↔
        (config.minScore ≤ (calculatePageScore count pageTextLower config).score ∧
          (calculatePageScore count pageTextLower config).excluded = false))
    ∧ keywordScore textLower kw =
        3 * ((kw.primary.map (fun k => (strCount (lowerStr k) textLower : Int))).sum)
        + (kw.secondary.map (fun k => (strCount (lowerStr k) textLower : Int))).sum
        - 2 * ((kw.negative.map (fun k => (strCount (lowerStr k) textLower : Int))).sum) := by
  refine ⟨?_, ?_, keywordScore_closed textLower kw⟩
  · simp only [calculatePageScore]
    by_cases hex : pageConfigExcluded pageTextLower config = true
    · simp [hex]
    · simp [hex, pageConfigScore_eq_sum]
  · simp only [calculatePageScore]
    by_cases hex : pageConfigExcluded pageTextLower config = true
    · simp [hex]
    · simp [hex]

theorem headD_mem {l : List Nat} (h : l ≠ []) : l.headD 0 ∈ l := by
  cases l with
  | nil => exact absurd rfl h
  | cons a t => exact List.mem_cons_self a t

theorem head?_eq_headD {l : List Nat} (h : l ≠ []) : l.head? = some (l.headD 0) := by
  cases l with
  | nil => exact absurd rfl h
  | cons a t => rfl

theorem getLastD_mem {l : List Nat} (h : l ≠ []) : l.getLastD 0 ∈ l := by
  induction l with
  | nil => exact absurd rfl h
  | cons a t ih =>
    cases t with
    | nil => simp [List.getLastD]
    | cons b t' =>
      have := ih (by simp)
      simp only [List.getLastD]
      exact List.mem_cons_of_mem a this

theorem groupRunsGo_props (P : Nat → Prop) (pending : List Nat) :
    ∀ (current : List Nat) (groups : List (List Nat)),
      current ≠ [] → List.Chain' (fun a b => b ≤ a + 1) current → (∀ x ∈ current, P x) →
      (∀ g ∈ groups, g ≠ [] ∧ List.Chain' (fun a b => b ≤ a + 1) g ∧ ∀ x ∈ g, P x) →
      (∀ x ∈ pending, P x) →
      ∀ g ∈ groupRunsGo pending current groups,
        g ≠ [] ∧ List.Chain' (fun a b => b ≤ a + 1) g ∧ ∀ x ∈ g, P x := by
  induction pending with
  | nil =>
    intro current groups hne hch hP hgroups _ g hg
    rw [groupRunsGo] at hg
    rcases List.mem_append.mp hg with h | h
    · exact hgroups g h
    · rw [List.mem_singleton] at h
      subst h
      exact ⟨hne, hch, hP⟩
  | cons x rest ih =>
    intro current groups hne hch hP hgroups hpend g hg
    rw [groupRunsGo] at hg
    by_cases hx : x ≤ current.getLastD 0 + 1
    · rw [if_pos hx] at hg
      refine ih (current ++ [x]) groups (by simp) ?_ ?_ hgroups
        (fun y hy => hpend y (List.mem_cons_of_mem x hy)) g hg
      · rw [List.chain'_append]
        refine ⟨hch, List.chain'_singleton x, ?_⟩
        intro a ha y hy
        rw [List.head?_cons, Option.mem_def, Option.some.injEq] at hy
        subst hy
        rw [Option.mem_def] at ha
        have : current.getLastD 0 = a := by
          rw [List.getLastD_eq_getLast?, ha]
          rfl
        omega
      · intro y hy
        rcases List.mem_append.mp hy with h | h
        · exact hP y h
        · rw [List.mem_singleton] at h
          subst h
          exact hpend _ (List.mem_cons_self _ _)
    · rw [if_neg hx] at hg
      refine ih [x] (groups ++ [current]) (by simp) (List.chain'_singleton x) ?_ ?_
        (fun y hy => hpend y (List.mem_cons_of_mem x hy)) g hg
      · intro y hy
        rw [List.mem_singleton] at hy
        subst hy
        exact hpend _ (List.mem_cons_self _ _)
      · intro g' hg'
        rcases List.mem_append.mp hg' with h | h
        · exact hgroups g' h
        · rw [List.mem_singleton] at h
          subst h
          exact ⟨hne, hch, hP⟩

theorem groupRuns_props (P : Nat → Prop) (l : List Nat) (hl : ∀ x ∈ l, P x) :
    ∀ g ∈ groupRuns l, g ≠ [] ∧ List.Chain' (fun a b => b ≤ a + 1) g ∧ ∀ x ∈ g, P x := by
  cases l with
  | nil => intro g hg; rw [groupRuns] at hg; exact absurd hg (List.not_mem_nil g)
  | cons p rest =>
    intro g hg
    rw [groupRuns] at hg
    refine groupRunsGo_props P rest [p] [] (by simp) (List.chain'_singleton p) ?_
      (by intro g' hg'; exact absurd hg' (List.not_mem_nil g'))
      (fun x hx => hl x (List.mem_cons_of_mem p hx)) g hg
    intro x hx
    rw [List.mem_singleton] at hx
    subst hx
    exact hl _ (List.mem_cons_self _ _)

theorem chain_cross (p : Nat) :
    ∀ (g : List Nat), List.Chain' (fun a b => b ≤ a + 1) g →
      ∀ h0, g.head? = some h0 → h0 ≤ p → (∃ y ∈ g, p < y) → (p + 1) ∈ g := by
  intro g
  induction g with
  | nil => intro _ h0 hh; simp at hh
  | cons a t ih =>
    intro hch h0 hh hle hex
    rw [List.head?_cons, Option.some.injEq] at hh
    subst hh
    cases t with
    | nil =>
      obtain ⟨y, hy, hpy⟩ := hex
      rw [List.mem_singleton] at hy
      subst hy
      omega
    | cons b t' =>
      rw [List.chain'_cons] at hch
      by_cases hbp : p < b
      · have hb1 : b = p + 1 := by omega
        have : (p + 1) ∈ b :: t' := by
          rw [← hb1]
          exact List.mem_cons_self b t'
        exact List.mem_cons_of_mem a this
      · obtain ⟨y, hy, hpy⟩ := hex
        have hy' : y ∈ b :: t' := by
          rcases List.mem_cons.mp hy with h | h
          · subst h; omega
          · exact h
        exact List.mem_cons_of_mem a
          (ih hch.2 b rfl (by omega) ⟨y, hy', hpy⟩)

theorem rangeOfGroup_bounds (ws g : List Nat) :
    g.headD 0 ≤ (rangeOfGroup ws g).1 + 1 ∧ (rangeOfGroup ws g).2 ≤ g.getLastD 0 + 1 := by
  simp only [rangeOfGroup]
  cases hf : ws.reverse.find?
      (fun w => decide (w < g.headD 0) && decide (g.headD 0 - 1 ≤ w)) with
  | some w =>
    have hw := List.find?_some hf
    simp only [Bool.and_eq_true, decide_eq_true_eq] at hw
    cases hf2 : ws.find?
        (fun w => decide (g.getLastD 0 < w) && decide (w ≤ g.getLastD 0 + 1)) with
    | some w2 =>
      have hw2 := List.find?_some hf2
      simp only [Bool.and_eq_true, decide_eq_true_eq] at hw2
      dsimp only
      constructor <;> omega
    | none =>
      dsimp only
      constructor <;> omega
  | none =>
    cases hf2 : ws.find?
        (fun w => decide (g.getLastD 0 < w) && decide (w ≤ g.getLastD 0 + 1)) with
    | some w2 =>
      have hw2 := List.find?_some hf2
      simp only [Bool.and_eq_true, decide_eq_true_eq] at hw2
      dsimp only
      constructor <;> omega
    | none =>
      dsimp only
      constructor <;> omega

/-- C4: two strong-signal pages separated by at least one page carrying
zero signal (neither strong nor weak) are never covered by the same
expanded document range — there is no allow-list in this path at all, so
the conservation holds for every document type; and the grouping step only
builds runs in which consecutive strong pages differ by at most 1. -/
theorem no_gap_bridging (strongPages weakPages : List Nat) (totalPages p q : Nat)
    (hp : p ∈ strongPages) (hq : q ∈ strongPages) (hsep : p + 2 ≤ q)
    (hgap : ∀ r, p < r → r < q → r ∉ strongPages ∧ r ∉ weakPages) :
    (∀ se ∈ expandDocumentRanges strongPages weakPages totalPages, ¬(se.1 ≤ p ∧ q ≤ se.2))
    ∧ ∀ g ∈ groupRuns (sortStable (fun a b => decide (a ≤ b)) strongPages),
        List.Chain' (fun a b => b ≤ a + 1) g := by
  have hprops := groupRuns_props (fun x => x ∈ strongPages)
    (sortStable (fun a b => decide (a ≤ b)) strongPages)
    (fun x hx => (mem_sortStable _ _ x).mp hx)
  constructor
  · rintro se hse ⟨hsp, hqe⟩
    rw [expandDocumentRanges] at hse
    by_cases hnil : strongPages = []
    · rw [if_pos hnil] at hse
      exact absurd hse (List.not_mem_nil se)
    · rw [if_neg hnil] at hse
      obtain ⟨g, hg, hrange⟩ := List.mem_map.mp hse
      obtain ⟨hne, hch, hmem⟩ := hprops g hg
      obtain ⟨hb1, hb2⟩ :=
        rangeOfGroup_bounds (sortStable (fun a b => decide (a ≤ b)) weakPages) g
      rw [hrange] at hb1 hb2
      have hs0mem : g.headD 0 ∈ strongPages := hmem _ (headD_mem hne)
      have he0mem : g.getLastD 0 ∈ strongPages := hmem _ (getLastD_mem hne)
      have hs0p : g.headD 0 ≤ p := by
        by_contra hgt
        have h1 : g.headD 0 = p + 1 := by omega
        exact (hgap (g.headD 0) (by omega) (by omega)).1 hs0mem
      have he0q : q ≤ g.getLastD 0 := by
        by_contra hlt
        have h1 : g.getLastD 0 = q - 1 := by omega
        exact (hgap (g.getLastD 0) (by omega) (by omega)).1 he0mem
      have hcross : (p + 1) ∈ g :=
        chain_cross p g hch (g.headD 0) (head?_eq_headD hne) hs0p
          ⟨g.getLastD 0, getLastD_mem hne, by omega⟩
      exact (hgap (p + 1) (by omega) (by omega)).1 (hmem _ hcross)
  · intro g hg
    exact (hprops g hg).2.1

/-- Witness for C4: strong pages 1 and 4 with no weak pages produce the
ranges (1,1) and (4,4); the first of them does not cover both pages. -/
theorem no_gap_bridging_witness :
    ¬(((1, 1) : Nat × Nat).1 ≤ 1 ∧ 4 ≤ ((1, 1) : Nat × Nat).2) := by
  refine (no_gap_bridging [1, 4] [] 4 1 4 (by decide) (by decide) (by decide)
    ?_).1 (1, 1) (by decide)
  intro r h1 h2
  constructor
  · simp only [List.mem_cons, List.not_mem_nil, or_false]
    omega
  · exact List.not_mem_nil r

theorem getD_mem {α : Type} (dflt : α) : ∀ (l : List α) (i : Nat), i < l.length →
    l.getD i dflt ∈ l := by
  intro l
  induction l with
  | nil => intro i h; simp at h
  | cons a t ih =>
    intro i h
    cases i with
    | zero => exact List.mem_cons_self a t
    | succ j =>
      have := ih j (by simp at h; omega)
      simpa using Or.inr this

theorem enumFrom_mem_of_getD {α : Type} (dflt : α) : ∀ (l : List α) (n i : Nat),
    i < l.length → (n + i, l.getD i dflt) ∈ List.enumFrom n l := by
  intro l
  induction l with
  | nil => intro n i h; simp at h
  | cons a t ih =>
    intro n i h
    cases i with
    | zero => exact List.mem_cons_self _ _
    | succ j =>
      have hmem := ih (n + 1) j (by simp at h; omega)
      have harith : n + (j + 1) = (n + 1) + j := by omega
      refine List.mem_cons_of_mem _ ?_
      rw [List.getD_cons_succ, harith]
      exact hmem

theorem mem_detectIndividualDocuments (count : String → String → Nat) (pageText : String)
    (pageNum : Nat) (d : DocumentType × ℚ × (Nat × Nat)) :
    d ∈ detectIndividualDocuments count pageText pageNum ↔
      ∃ cfgPair ∈ signaturePatterns,
        (cfgPair.2.minScore ≤ pageConfigScore count (lowerStr pageText) cfgPair.2 ∧
          pageConfigExcluded (lowerStr pageText) cfgPair.2 = false) ∧
        d = (cfgPair.1,
          min ((9 : ℚ)/10) ((pageConfigScore count (lowerStr pageText) cfgPair.2 : ℚ) / 5),
          (pageNum, pageNum)) := by
  rw [detectIndividualDocuments,
    mem_foldl_condAppend
      (fun cfgPair => (cfgPair.1,
        min ((9 : ℚ)/10) ((pageConfigScore count (lowerStr pageText) cfgPair.2 : ℚ) / 5),
        (pageNum, pageNum)))
      (fun cfgPair => cfgPair.2.minScore ≤ pageConfigScore count (lowerStr pageText) cfgPair.2 ∧
        pageConfigExcluded (lowerStr pageText) cfgPair.2 = false)
      signaturePatterns [] d]
  simp

theorem mem_detectDocumentsInPages (count : String → String → Nat) (pages : List String)
    (d : DocumentType × ℚ × (Nat × Nat)) :
    d ∈ detectDocumentsInPages count pages ↔
      ∃ pn ∈ List.enumFrom 1 pages, d ∈ detectIndividualDocuments count pn.2 pn.1 := by
  rw [detectDocumentsInPages]
  exact List.mem_flatMap

theorem detect_pagesBol_eval :
    detectDocumentsInPages countBol pagesBol =
      [(DocumentType.bill_of_lading, min ((9 : ℚ)/10) (((1 : Nat) : ℚ) / 5), (1, 1)),
       (DocumentType.bill_of_lading, min ((9 : ℚ)/10) (((1 : Nat) : ℚ) / 5), (2, 2)),
       (DocumentType.bill_of_lading, min ((9 : ℚ)/10) (((1 : Nat) : ℚ) / 5), (3, 3)),
       (DocumentType.bill_of_lading, min ((9 : ℚ)/10) (((1 : Nat) : ℚ) / 5), (4, 4))] := rfl

/-- C5 counterexample: four consecutive pages that each score 1 for
bill_of_lading (one signature match per page, no gaps) yield four
single-page spans (1,1), (2,2), (3,3), (4,4) — not a single span covering
pages 1-4. -/
theorem bol_single_span_cex :
    spansOf (detectDocumentsInPages countBol pagesBol) = [(1, 1), (2, 2), (3, 3), (4, 4)]
    ∧ spansOf (detectDocumentsInPages countBol pagesBol) ≠ [(1, 4)] := by
  exact ⟨by decide, by decide⟩

/-- C5 amended: for input pages that all meet the bill-of-lading threshold,
the detector emits one single-page bill_of_lading span per page; no
returned span covers more than one page, because the smart-merge phase is
disabled and `_should_merge_documents` returns False even for the
allow-listed bill_of_lading type. -/
theorem bol_pages_detected_individually (count : String → String → Nat)
    (pages : List String)
    (hall : ∀ page ∈ pages, bolCfg.minScore ≤ pageConfigScore count (lowerStr page) bolCfg) :
    (∀ i, i < pages.length →
      (DocumentType.bill_of_lading,
        min ((9 : ℚ)/10) ((pageConfigScore count (lowerStr (pages.getD i "")) bolCfg : ℚ) / 5),
        (i + 1, i + 1)) ∈ detectDocumentsInPages count pages)
    ∧ (∀ d ∈ detectDocumentsInPages count pages, d.2.2.1 = d.2.2.2)
    ∧ ∀ p1 p2, shouldMergeDocuments DocumentType.bill_of_lading p1 p2 = false := by
  refine ⟨?_, ?_, ?_⟩
  · intro i hi
    refine (mem_detectDocumentsInPages count pages _).mpr
      ⟨(i + 1, pages.getD i ""), ?_, ?_⟩
    · have := enumFrom_mem_of_getD "" pages 1 i hi
      rwa [Nat.add_comm 1 i] at this
    · refine (mem_detectIndividualDocuments count (pages.getD i "") (i + 1) _).mpr
        ⟨(DocumentType.bill_of_lading, bolCfg), ?_, ⟨?_, rfl⟩, rfl⟩
      · unfold signaturePatterns
        exact List.mem_cons_of_mem _ (List.mem_cons_of_mem _ (List.mem_cons_self _ _))
      · exact hall _ (getD_mem "" pages i hi)
  · intro d hd
    obtain ⟨pn, _, hin⟩ := (mem_detectDocumentsInPages count pages d).mp hd
    obtain ⟨cfgPair, _, _, hdeq⟩ :=
      (mem_detectIndividualDocuments count pn.2 pn.1 d).mp hin
    rw [hdeq]
  · intro p1 p2
    rfl

/-- Witness for C5 (amended): on the concrete four bill-of-lading pages the
first page yields its own single-page span. -/
theorem bol_pages_detected_individually_witness :
    (DocumentType.bill_of_lading,
      min ((9 : ℚ)/10) ((pageConfigScore countBol (lowerStr (pagesBol.getD 0 "")) bolCfg : ℚ) / 5),
      ((1 : Nat), (1 : Nat))) ∈ detectDocumentsInPages countBol pagesBol := by
  exact (bol_pages_detected_individually countBol pagesBol (by decide)).1 0 (by decide)

/-- C10: every (document type, confidence, page range) triple returned by
`detect_documents_in_pages` has a page range whose start equals its end:
detections are produced strictly per page and the smart-merge phase is
bypassed, so no returned span covers more than one page. -/
theorem detect_spans_single_page (count : String → String → Nat) (pages : List String) :
    ∀ d ∈ detectDocumentsInPages count pages, d.2.2.1 = d.2.2.2 := by
  intro d hd
  obtain ⟨pn, _, hin⟩ := (mem_detectDocumentsInPages count pages d).mp hd
  obtain ⟨cfgPair, _, _, hdeq⟩ := (mem_detectIndividualDocuments count pn.2 pn.1 d).mp hin
  rw [hdeq]

/-- Witness for C10: the first detection on the concrete four-page input has
span (2,2) — start equals end. -/
theorem detect_spans_single_page_witness :
    (((2 : Nat), (2 : Nat)) : Nat × Nat).1 = (((2 : Nat), (2 : Nat)) : Nat × Nat).2 := by
  have hmem : (DocumentType.bill_of_lading, min ((9 : ℚ)/10) (((1 : Nat) : ℚ) / 5),
      ((2 : Nat), (2 : Nat))) ∈ detectDocumentsInPages countBol pagesBol := by
    rw [detect_pagesBol_eval]
    exact List.mem_cons_of_mem _ (List.mem_cons_self _ _)
  exact detect_spans_single_page countBol pagesBol _ hmem

theorem mem_boundaryFold
    (pageScores : List (Nat × String × List (DocumentType × PageTypeScore)))
    (docType : DocumentType) (l : List (Nat × Nat)) :
    ∀ (init : List (DocumentType × ℚ × (Nat × Nat))) (d : DocumentType × ℚ × (Nat × Nat)),
      d ∈ l.foldl
        (fun ds range =>
          if 0 < (rangeScoreStats pageScores docType range.1 range.2).2 then
            ds ++
              [(docType,
                min ((9 : ℚ)/10)
                  ((((rangeScoreStats pageScores docType range.1 range.2).1 : ℚ) /
                    ((rangeScoreStats pageScores docType range.1 range.2).2 : ℚ)) / 5),
                (range.1, range.2))]
          else ds)
        init ↔
      d ∈ init ∨ ∃ range ∈ l, 0 < (rangeScoreStats pageScores docType range.1 range.2).2 ∧
        d = (docType,
          min ((9 : ℚ)/10)
            ((((rangeScoreStats pageScores docType range.1 range.2).1 : ℚ) /
              ((rangeScoreStats pageScores docType range.1 range.2).2 : ℚ)) / 5),
          (range.1, range.2)) := by
  induction l with
  | nil => simp
  | cons x xs ih =>
    intro init d
    rw [List.foldl_cons]
    by_cases hx : 0 < (rangeScoreStats pageScores docType x.1 x.2).2
    · rw [if_pos hx, ih]
      simp only [List.mem_append, List.mem_cons, List.not_mem_nil, or_false]
      constructor
      · rintro (⟨h | h⟩ | ⟨y, hy, hP, hd⟩)
        · exact Or.inl h
        · exact Or.inr ⟨x, Or.inl rfl, hx, h⟩
        · exact Or.inr ⟨y, Or.inr hy, hP, hd⟩
      · rintro (h | ⟨y, (rfl | hy), hP, hd⟩)
        · exact Or.inl (Or.inl h)
        · exact Or.inl (Or.inr hd)
        · exact Or.inr ⟨y, hy, hP, hd⟩
    · rw [if_neg hx, ih]
      simp only [List.mem_cons]
      constructor
      · rintro (h | ⟨y, hy, hP, hd⟩)
        · exact Or.inl h
        · exact Or.inr ⟨y, Or.inr hy, hP, hd⟩
      · rintro (h | ⟨y, (rfl | hy), hP, hd⟩)
        · exact Or.inl h
        · exact absurd hP hx
        · exact Or.inr ⟨y, hy, hP, hd⟩

theorem mem_boundaryTypeDocs
    (pageScores : List (Nat × String × List (DocumentType × PageTypeScore)))
    (docType : DocumentType) (d : DocumentType × ℚ × (Nat × Nat))
    (hd : d ∈ boundaryTypeDocs pageScores docType) :
    ∃ range : Nat × Nat, 0 < (rangeScoreStats pageScores docType range.1 range.2).2 ∧
      d = (docType,
        min ((9 : ℚ)/10)
          ((((rangeScoreStats pageScores docType range.1 range.2).1 : ℚ) /
            ((rangeScoreStats pageScores docType range.1 range.2).2 : ℚ)) / 5),
        (range.1, range.2)) := by
  simp only [boundaryTypeDocs] at hd
  split at hd
  · exact absurd hd (List.not_mem_nil d)
  · rw [mem_boundaryFold pageScores docType] at hd
    rcases hd with h | ⟨range, _, hpos, hdeq⟩
    · exact absurd h (List.not_mem_nil d)
    · exact ⟨range, hpos, hdeq⟩

/-- C7: every span detected by the boundary detector has confidence equal to
the average per-page score of its covered (in-bounds) pages divided by 5 and
capped at 0.9 — that is, min(0.9, (total/valid)/5) — and this value always
lies in [0, 0.9]; the per-page individual detector likewise assigns
min(0.9, score/5) ∈ [0, 0.9]. -/
theorem span_confidence_normalized
    (pageScores : List (Nat × String × List (DocumentType × PageTypeScore)))
    (count : String → String → Nat) (pages : List String) :
    (∀ d ∈ detectDocumentBoundaries pageScores,
      (d.2.1 = min ((9 : ℚ)/10)
          ((((rangeScoreStats pageScores d.1 d.2.2.1 d.2.2.2).1 : ℚ) /
            ((rangeScoreStats pageScores d.1 d.2.2.1 d.2.2.2).2 : ℚ)) / 5)
        ∧ 0 < (rangeScoreStats pageScores d.1 d.2.2.1 d.2.2.2).2)
      ∧ 0 ≤ d.2.1 ∧ d.2.1 ≤ 9/10)
    ∧ ∀ d ∈ detectDocumentsInPages count pages,
      (∃ s : Nat, d.2.1 = min ((9 : ℚ)/10) ((s : ℚ) / 5)) ∧ 0 ≤ d.2.1 ∧ d.2.1 ≤ 9/10 := by
  constructor
  · intro d hd
    rw [detectDocumentBoundaries, mem_sortStable] at hd
    rw [mem_foldl_append (fun docType => boundaryTypeDocs pageScores docType)] at hd
    rcases hd with h | ⟨docType, _, hin⟩
    · exact absurd h (List.not_mem_nil d)
    · obtain ⟨range, hpos, hdeq⟩ := mem_boundaryTypeDocs pageScores docType d hin
      subst hdeq
      refine ⟨⟨rfl, hpos⟩, ?_, ?_⟩
      · refine le_min (by norm_num) ?_
        positivity
      · exact min_le_left _ _
  · intro d hd
    obtain ⟨pn, _, hin⟩ := (mem_detectDocumentsInPages count pages d).mp hd
    obtain ⟨cfgPair, _, _, hdeq⟩ := (mem_detectIndividualDocuments count pn.2 pn.1 d).mp hin
    subst hdeq
    refine ⟨⟨pageConfigScore count (lowerStr pn.2) cfgPair.2, rfl⟩, ?_, ?_⟩
    · refine le_min (by norm_num) ?_
      positivity
    · exact min_le_left _ _

theorem detect_boundaries_eval :
    detectDocumentBoundaries pageScoresW =
      [(DocumentType.bill_of_lading,
        min ((9 : ℚ)/10) ((((5 : Nat) : ℚ) / ((1 : Nat) : ℚ)) / 5), (1, 1))] := rfl

/-- Witness for C7: the single detected span of the concrete one-page
boundary input has confidence within [0, 0.9]. -/
theorem span_confidence_normalized_witness :
    0 ≤ (DocumentType.bill_of_lading,
        min ((9 : ℚ)/10) ((((5 : Nat) : ℚ) / ((1 : Nat) : ℚ)) / 5), ((1 : Nat), (1 : Nat))).2.1
    ∧ (DocumentType.bill_of_lading,
        min ((9 : ℚ)/10) ((((5 : Nat) : ℚ) / ((1 : Nat) : ℚ)) / 5),
        ((1 : Nat), (1 : Nat))).2.1 ≤ 9/10 := by
  have hmem : (DocumentType.bill_of_lading,
      min ((9 : ℚ)/10) ((((5 : Nat) : ℚ) / ((1 : Nat) : ℚ)) / 5), ((1 : Nat), (1 : Nat))) ∈
      detectDocumentBoundaries pageScoresW := by
    rw [detect_boundaries_eval]
    exact List.mem_cons_self _ _
  exact ((span_confidence_normalized pageScoresW countZero []).1 _ hmem).2

theorem tryMultiplePatternsGo_found (text : String) (confidence : ℚ) :
    ∀ (l : List (String → Option String)) (n i0 : Nat) (p : String → Option String)
      (v : String),
      (∀ j pj, j < n → l.get? j = some pj → pj text = none) →
      l.get? n = some p → p text = some v →
      tryMultiplePatternsGo text confidence l i0 =
        some (v, max (1/2) (confidence - ((i0 + n : Nat) : ℚ) * (1/10))) := by
  intro l
  induction l with
  | nil => intro n i0 p v _ hget; simp at hget
  | cons p0 rest ih =>
    intro n i0 p v hbefore hget hmatch
    cases n with
    | zero =>
      rw [List.get?_cons_zero, Option.some.injEq] at hget
      subst hget
      rw [tryMultiplePatternsGo, hmatch]
      norm_num
    | succ m =>
      have h0 : p0 text = none :=
        hbefore 0 p0 (Nat.succ_pos m) List.get?_cons_zero
      rw [tryMultiplePatternsGo, h0]
      rw [List.get?_cons_succ] at hget
      have hres := ih m (i0 + 1) p v
        (fun j pj hj hpj => hbefore (j + 1) pj (by omega) (by rwa [List.get?_cons_succ]))
        hget hmatch
      rw [hres]
      have harith : i0 + 1 + m = i0 + (m + 1) := by omega
      rw [harith]

/-- C6: when the first matching pattern for a field sits at 0-based index i
and the base confidence is 0.9, the returned confidence equals
max(0.5, 0.9 - 0.1*i); and that adjusted confidence is monotonically
non-increasing in the pattern index, floored at 0.5. -/
theorem pattern_confidence_monotone (patternsList : List (String → Option String))
    (text : String) (i : Nat) (p : String → Option String) (v : String)
    (hbefore : ∀ j pj, j < i → patternsList.get? j = some pj → pj text = none)
    (hget : patternsList.get? i = some p) (hmatch : p text = some v) :
    tryMultiplePatterns patternsList text ((9 : ℚ)/10) =
      some (v, max (1/2) ((9 : ℚ)/10 - (i : ℚ) * (1/10)))
    ∧ ∀ k : Nat, max (1/2) ((9 : ℚ)/10 - ((k : ℚ) + 1) * (1/10)) ≤
        max (1/2) ((9 : ℚ)/10 - (k : ℚ) * (1/10)) := by
  constructor
  · have hres := tryMultiplePatternsGo_found text ((9 : ℚ)/10) patternsList i 0 p v
      hbefore hget hmatch
    rw [tryMultiplePatterns, hres]
    norm_num
  · intro k
    apply max_le_max (le_refl _)
    have hcast : ((k : ℚ) + 1) * (1/10) = (k : ℚ) * (1/10) + 1/10 := by ring
    linarith

/-- Witness for C6: the second pattern (index 1) matching yields confidence
max(0.5, 0.9 - 0.1). -/
theorem pattern_confidence_monotone_witness :
    tryMultiplePatterns patsWitness "t" ((9 : ℚ)/10) =
      some ("X", max (1/2) ((9 : ℚ)/10 - ((1 : Nat) : ℚ) * (1/10))) := by
  refine (pattern_confidence_monotone patsWitness "t" 1 (fun _ => some "X") "X" ?_ rfl
    rfl).1
  intro j pj hj hpj
  have hj0 : j = 0 := by omega
  subst hj0
  have h := hpj
  rw [show patsWitness.get? 0 = some (fun _ => none) from rfl] at h
  injection h with h'
  rw [← h']

/-- C8 counterexample: on a page with no detector signal the enhanced
detector returns no documents, the legacy fallback classifies the text as
UNKNOWN with confidence 0, and the assembled result contains that one
fallback detection — the detected-documents list is NOT empty and NO
warning is recorded (the status is COMPLETED, not failed). -/
theorem classification_empty_cex :
    detectDocumentsInPages countZero [aText] = []
    ∧ detectDocumentType aText = (DocumentType.unknown, 0)
    ∧ (processPdfDetections (detectDocumentsInPages countZero [aText])
        (detectDocumentType aText) 1).detectedDocuments =
        [DocumentDetectionE.mk DocumentType.unknown 0 (1, 1)]
    ∧ (processPdfDetections (detectDocumentsInPages countZero [aText])
        (detectDocumentType aText) 1).detectedDocuments ≠ []
    ∧ (processPdfDetections (detectDocumentsInPages countZero [aText])
        (detectDocumentType aText) 1).warnings = []
    ∧ (processPdfDetections (detectDocumentsInPages countZero [aText])
        (detectDocumentType aText) 1).status = ProcessingStatus.completed := by
  have hdocs : (processPdfDetections (detectDocumentsInPages countZero [aText])
      (detectDocumentType aText) 1).detectedDocuments =
      [DocumentDetectionE.mk DocumentType.unknown 0 (1, 1)] := rfl
  refine ⟨rfl, rfl, hdocs, ?_, rfl, rfl⟩
  rw [hdocs]
  simp

/-- C8 amended: when the enhanced detector returns no documents, the result
still completes without error — status COMPLETED, not FAILED — but the
detected-documents list is not empty: it holds exactly one fallback
detection from the legacy whole-text detector spanning
(1, total_pages or 1), and no warning is recorded. -/
theorem classification_empty_amended (multipleDocs : List (DocumentType × ℚ × (Nat × Nat)))
    (fallback : DocumentType × ℚ) (totalPages : Nat) (h : multipleDocs = []) :
    (processPdfDetections multipleDocs fallback totalPages).status ≠ ProcessingStatus.failed
    ∧ (processPdfDetections multipleDocs fallback totalPages).status =
        ProcessingStatus.completed
    ∧ (processPdfDetections multipleDocs fallback totalPages).errors = []
    ∧ (processPdfDetections multipleDocs fallback totalPages).warnings = []
    ∧ (processPdfDetections multipleDocs fallback totalPages).detectedDocuments =
        [DocumentDetectionE.mk fallback.1 fallback.2
          (1, if totalPages = 0 then 1 else totalPages)] := by
  subst h
  refine ⟨?_, rfl, rfl, rfl, rfl⟩
  intro hcon
  rw [show (processPdfDetections [] fallback totalPages).status =
    ProcessingStatus.completed from rfl] at hcon
  exact ProcessingStatus.noConfusion hcon

/-- Witness for C8 (amended): with the concrete unknown fallback and one
page, the assembled result carries exactly the fallback detection and does
not fail. -/
theorem classification_empty_amended_witness :
    (processPdfDetections [] (detectDocumentType aText) 1).detectedDocuments =
      [DocumentDetectionE.mk (detectDocumentType aText).1 (detectDocumentType aText).2
        (1, if (1 : Nat) = 0 then 1 else 1)]
    ∧ (processPdfDetections [] (detectDocumentType aText) 1).status ≠
        ProcessingStatus.failed := by
  have h := classification_empty_amended [] (detectDocumentType aText) 1 rfl
  exact ⟨h.2.2.2.2, h.1⟩

/-- C9 counterexample: on the page "발급일자 2024년 3월 5일" the extractors
store the raw matched date text "2024년 3월 5일" (a date the DB layer can
recognize) under issue_date / transfer_date — present but not in the
YYYY-MM-DD shape — so a recognizable date is not normalized in the stored
field (and an unrecognizable one would have had to be absent). -/
theorem date_not_normalized_cex :
    (extractTaxInvoiceData searchNone dateCexText).lookup "issue_date" =
      some (FieldDataE.mk "2024년 3월 5일" ((4 : ℚ)/5))
    ∧ (extractTransferConfirmationData searchNone dateCexText).lookup "transfer_date" =
      some (FieldDataE.mk "2024년 3월 5일" ((4 : ℚ)/5))
    ∧ isYyyyMmDd "2024년 3월 5일" = false
    ∧ dateKrSearch dateCexText = some "2024년 3월 5일" := by
  exact ⟨rfl, rfl, rfl, rfl⟩

/-- C9 amended: the issue_date / transfer_date field stores the raw matched
`date_kr` text (trimmed) with confidence 0.8 whenever the date regex finds
a match, and the field is absent exactly when the regex finds none;
normalization to YYYY-MM-DD is not performed in the extractor (it happens
later, in the DB mapper). -/
theorem date_fields_raw_or_absent (search : String → String → Option String)
    (text : String) :
    (extractTaxInvoiceData search text).lookup "issue_date" =
      (dateKrSearch text).map (fun m => FieldDataE.mk (trimS m) ((4 : ℚ)/5))
    ∧ (extractTransferConfirmationData search text).lookup "transfer_date" =
      (dateKrSearch text).map (fun m => FieldDataE.mk (trimS m) ((4 : ℚ)/5)) := by
  constructor
  · simp only [extractTaxInvoiceData]
    repeat' split
    all_goals simp only [*, Option.map_some', Option.map_none']
    all_goals rfl
  · simp only [extractTransferConfirmationData]
    repeat' split
    all_goals simp only [*, Option.map_some', Option.map_none']
    all_goals rfl

/-- Witness for C3 (amended): the per-page score formula instantiated on the
concrete tax-invoice page. -/
theorem page_score_amended_witness :
    (calculatePageScore countTaxOnce (lowerStr "세금계산서") taxInvoiceCfg).score =
      if pageConfigExcluded (lowerStr "세금계산서") taxInvoiceCfg = true then 0
      else (taxInvoiceCfg.patterns.map
        (fun p => countTaxOnce p (lowerStr "세금계산서"))).sum :=
  (page_score_amended countTaxOnce (lowerStr "세금계산서") taxInvoiceCfg
    (lowerStr "invoice tax invoice") invoiceKw).1

/-- Witness for C9 (amended): the issue_date field on the concrete dated
page equals the mapped raw date match. -/
theorem date_fields_raw_or_absent_witness :
    (extractTaxInvoiceData searchNone dateCexText).lookup "issue_date" =
      (dateKrSearch dateCexText).map (fun m => FieldDataE.mk (trimS m) ((4 : ℚ)/5)) :=
  (date_fields_raw_or_absent searchNone dateCexText).1
